import Mathlib

/-!
# Verification of the object-tracking and effect-compositing pipeline

This development gives a shallow embedding of the `ObjectTracker` component
(`src/object_tracker.h`) and of `AIServices::smartReframe`
(`src/ai_services.cpp`) of the Video-Editor-App-Pro repository, and proves
the testable properties stated in the design document (`spec.md`) about them.

The repository ships only the declaration header `object_tracker.h` for the
tracker; the member-function bodies (`object_tracker.cpp`) are not part of
the sources.  Wherever a definition below embeds such a missing body it is
modelled from the design document and its doc comment says so explicitly
(`Modelled from the spec: ...`).  Declarations that do appear in the header
(the `TrackingResult` struct layout, the `const` qualifiers on the query
members, parameter names and defaults) are embedded from the header itself.

Numeric conventions: C++ `int` members are embedded as `Int`, `double`
members as `ℚ` (the properties under verification only involve exact
comparisons and clamping, never rounding error).
-/

namespace ObjectTracker

/-- Qt's `QRect` as used by the header: integer x, y, width, height. -/
structure QRect where
  x : Int
  y : Int
  width : Int
  height : Int
deriving DecidableEq, Repr

/-- Area of a `QRect`; a zero-area box denotes "no region" in the spec. -/
def QRect.area (r : QRect) : Int := r.width * r.height

/-- The `TrackingResult` struct exactly as declared in `object_tracker.h`
(lines 62-69): fields `frameNumber`, `boundingBox`, `confidence` and nothing
else.  Note that the struct has no status field. -/
structure TrackingResult where
  frameNumber : Int
  boundingBox : QRect
  confidence : ℚ
deriving DecidableEq, Repr

/-- Modelled from the spec: the per-frame tracking status `{Tracked, Lost}`
of §3 of the design document.  It does not appear in the C++ struct; it is
the spec-level view of a frame's outcome. -/
inductive TrackStatus where
  | Tracked
  | Lost
deriving DecidableEq, Repr

/-- Modelled from the spec: a spec-level `TrackingResult` record of §3,
`{frameNumber, box, confidence, status}`, as produced by the session loop.
The C++ struct stores only the first three components (see
`toTrackingResult`). -/
structure SessionResult where
  frameNumber : Int
  box : QRect
  confidence : ℚ
  status : TrackStatus
deriving DecidableEq, Repr

/-- Projection of a spec-level result onto the C++ `TrackingResult` struct:
the status component has no corresponding field and is dropped. -/
def toTrackingResult (r : SessionResult) : TrackingResult :=
  ⟨r.frameNumber, r.box, r.confidence⟩

/-- A default result used with `List.getD`. -/
def dummyResult : SessionResult := ⟨0, ⟨0, 0, 0, 0⟩, 0, .Tracked⟩

/-- Modelled from the spec: the outcome of one `TrackerAlgorithm.update`
call (§4.1): either a refined estimate `(box, confidence)` or failure.
The algorithm itself is a black box; a session is parametrised by the
per-frame outcomes it produces. -/
inductive UpdateOutcome where
  | ok (box : QRect) (confidence : ℚ)
  | fail
deriving DecidableEq, Repr

/-- Modelled from the spec: §4.2 appends one result per frame.  A
successful `update` yields a `Tracked` result carrying the fresh estimate;
a failed `update` yields a `Lost` result with `confidence = 0` whose box
holds the previous result's box (hold-last-value, §3). -/
def stepFrame (prev : SessionResult) (n : Int) (o : UpdateOutcome) : SessionResult :=
  match o with
  | .ok b c => ⟨n, b, c, .Tracked⟩
  | .fail => ⟨n, prev.box, 0, .Lost⟩

/-- Modelled from the spec: the frame loop of §4.2 after the init frame,
producing `k` further results for frames `n, n+1, ...`, threading the
previous result for the hold-last-value rule. -/
def runFrames (upd : Int → UpdateOutcome) : SessionResult → Int → Nat → List SessionResult
  | _, _, 0 => []
  | prev, n, k + 1 =>
    let r := stepFrame prev n (upd n)
    r :: runFrames upd r (n + 1) k

/-- The error taxonomy of §7 of the design document. -/
inductive TrackerError where
  | InvalidInput
  | InitFailed
  | UnsupportedEffect
  | IOFailure
deriving DecidableEq, Repr

/-- The private state of an `ObjectTracker` instance that the claims are
about: `m_videoFile` and `m_trackingResults` (header lines 168-169).  The
stored results are kept at the spec level (with status) so that spec-level
invariants can be stated; the C++ store holds their `toTrackingResult`
projections. -/
structure TrackerState where
  videoFile : String
  trackingResults : List SessionResult
deriving DecidableEq, Repr

/-- What one call to `ObjectTracker::trackObject` did: its boolean return
value, the error reported on failure, how many frames were read from the
source, and the tracker state after the call. -/
structure TrackOutcome where
  success : Bool
  error : Option TrackerError
  framesRead : Nat
  state : TrackerState
deriving DecidableEq, Repr

/-- Modelled from the spec: the body of `ObjectTracker::trackObject` is not
in the repository sources (only its declaration, header lines 80-86).
Following §4.2 and §7: a malformed (zero- or negative-area) initial box is
rejected as `InvalidInput` immediately, before any frame is read and with
the stored results untouched; then the first frame seeds the tracker
(`init`, here the flag `initOk`), whose failure aborts the run with
`InitFailed` and no results retained; otherwise one result is appended for
every frame of `[startFrame, endFrame]` regardless of per-frame success.
`endFrame` is the resolved inclusive end of the range (§4.2 resolves
`endFrame = -1` from the source's duration before the loop starts); a
resolved empty range is rejected as `InvalidInput`. -/
def trackObject (s : TrackerState) (videoFile : String) (initialRect : QRect)
    (initOk : Bool) (upd : Int → UpdateOutcome) (startFrame endFrame : Int) :
    TrackOutcome :=
  if initialRect.width ≤ 0 ∨ initialRect.height ≤ 0 then
    ⟨false, some .InvalidInput, 0, s⟩
  else if endFrame < startFrame then
    ⟨false, some .InvalidInput, 0, s⟩
  else if initOk = false then
    ⟨false, some .InitFailed, 1, s⟩
  else
    let first : SessionResult := ⟨startFrame, initialRect, 1, .Tracked⟩
    let rs := first :: runFrames upd first (startFrame + 1) (endFrame - startFrame).toNat
    ⟨true, none, rs.length, ⟨videoFile, rs⟩⟩

/-- The results sequence left in the tracker by a `trackObject` call. -/
def sessionOf (s : TrackerState) (videoFile : String) (initialRect : QRect)
    (upd : Int → UpdateOutcome) (startFrame endFrame : Int) : List SessionResult :=
  (trackObject s videoFile initialRect true upd startFrame endFrame).state.trackingResults

theorem runFrames_length (upd : Int → UpdateOutcome) :
    ∀ (k : Nat) (prev : SessionResult) (n : Int),
      (runFrames upd prev n k).length = k := by
  intro k
  induction k with
  | zero => intro prev n; rfl
  | succ k ih => intro prev n; simp [runFrames, ih]

theorem runFrames_getD_frameNumber (upd : Int → UpdateOutcome) :
    ∀ (k : Nat) (prev : SessionResult) (n : Int) (i : Nat), i < k →
      ((runFrames upd prev n k).getD i dummyResult).frameNumber = n + i := by
  intro k
  induction k with
  | zero => intro prev n i h; omega
  | succ k ih =>
    intro prev n i h
    cases i with
    | zero =>
      simp only [runFrames, List.getD_cons_zero]
      cases hu : upd n <;> simp [stepFrame, hu]
    | succ i =>
      simp only [runFrames, List.getD_cons_succ]
      rw [ih _ (n + 1) i (by omega)]
      push_cast
      ring

/-- C1: after a completed tracking run over `[startFrame, endFrame]`, the
session's results sequence has exactly `endFrame - startFrame + 1` entries,
one per visited frame, indexed by `frameNumber` with no gaps (a result is
appended even for frames where tracking failed). -/
theorem trackObject_results_complete (s : TrackerState) (v : String)
    (initialRect : QRect) (upd : Int → UpdateOutcome) (startFrame endFrame : Int)
    (hw : 0 < initialRect.width) (hh : 0 < initialRect.height)
    (hse : startFrame ≤ endFrame) :
    (((sessionOf s v initialRect upd startFrame endFrame).length : Int)
        = endFrame - startFrame + 1)
    ∧ ∀ i : Nat, i < (sessionOf s v initialRect upd startFrame endFrame).length →
        ((sessionOf s v initialRect upd startFrame endFrame).getD i dummyResult).frameNumber
          = startFrame + i := by
  have hcond : ¬(initialRect.width ≤ 0 ∨ initialRect.height ≤ 0) := by
    push_neg; exact ⟨hw, hh⟩
  have hrs : sessionOf s v initialRect upd startFrame endFrame
      = (⟨startFrame, initialRect, 1, .Tracked⟩ : SessionResult)
        :: runFrames upd ⟨startFrame, initialRect, 1, .Tracked⟩ (startFrame + 1)
            (endFrame - startFrame).toNat := by
    simp [sessionOf, trackObject, hcond, not_lt.mpr hse]
  constructor
  · rw [hrs]
    simp only [List.length_cons, runFrames_length]
    omega
  · intro i hi
    rw [hrs] at hi ⊢
    cases i with
    | zero => simp
    | succ i =>
      simp only [List.getD_cons_succ]
      simp only [List.length_cons, runFrames_length] at hi
      rw [runFrames_getD_frameNumber upd _ _ _ i (by omega)]
      push_cast
      ring

/-- Witness for C1 at a concrete run: 3 frames over `[5, 7]`, the middle
update failing. -/
theorem trackObject_results_complete_witness :
    (((sessionOf ⟨"", []⟩ "a.mp4" ⟨0, 0, 10, 10⟩
        (fun n => if n = 6 then .fail else .ok ⟨1, 1, 10, 10⟩ (9/10)) 5 7).length : Int)
        = 7 - 5 + 1)
    ∧ ∀ i : Nat, i < (sessionOf ⟨"", []⟩ "a.mp4" ⟨0, 0, 10, 10⟩
        (fun n => if n = 6 then .fail else .ok ⟨1, 1, 10, 10⟩ (9/10)) 5 7).length →
        ((sessionOf ⟨"", []⟩ "a.mp4" ⟨0, 0, 10, 10⟩
          (fun n => if n = 6 then .fail else .ok ⟨1, 1, 10, 10⟩ (9/10)) 5 7).getD
            i dummyResult).frameNumber = 5 + i :=
  trackObject_results_complete ⟨"", []⟩ "a.mp4" ⟨0, 0, 10, 10⟩
    (fun n => if n = 6 then .fail else .ok ⟨1, 1, 10, 10⟩ (9/10)) 5 7
    (by decide) (by decide) (by decide)

theorem stepFrame_lost_box (prev : SessionResult) (n : Int) (o : UpdateOutcome) :
    (stepFrame prev n o).status = .Lost → (stepFrame prev n o).box = prev.box := by
  cases o <;> simp [stepFrame]

theorem runFrames_getD_zero (upd : Int → UpdateOutcome) (prev : SessionResult)
    (n : Int) (k : Nat) (hk : 0 < k) :
    (runFrames upd prev n k).getD 0 dummyResult = stepFrame prev n (upd n) := by
  cases k with
  | zero => omega
  | succ k => rfl

theorem runFrames_lost_holds_last (upd : Int → UpdateOutcome) :
    ∀ (k : Nat) (prev : SessionResult) (n : Int) (i : Nat), i + 1 < k →
      ((runFrames upd prev n k).getD (i + 1) dummyResult).status = .Lost →
      ((runFrames upd prev n k).getD (i + 1) dummyResult).box
        = ((runFrames upd prev n k).getD i dummyResult).box := by
  intro k
  induction k with
  | zero => intro prev n i h; omega
  | succ k ih =>
    intro prev n i h hlost
    cases i with
    | zero =>
      simp only [runFrames, List.getD_cons_succ, List.getD_cons_zero] at hlost ⊢
      rw [runFrames_getD_zero upd _ _ _ (by omega)] at hlost ⊢
      exact stepFrame_lost_box _ _ _ hlost
    | succ i =>
      simp only [runFrames, List.getD_cons_succ] at hlost ⊢
      exact ih _ (n + 1) i (by omega) hlost

/-- C2: in every session, the first result is never `Lost`, and every
`Lost` result's box equals the box of the immediately preceding result in
the sequence (hold-last-value invariant), so a run of `Lost` frames all
carry the last known good box. -/
theorem trackObject_lost_holds_last (s : TrackerState) (v : String)
    (initialRect : QRect) (upd : Int → UpdateOutcome) (startFrame endFrame : Int)
    (hw : 0 < initialRect.width) (hh : 0 < initialRect.height)
    (hse : startFrame ≤ endFrame) :
    ((sessionOf s v initialRect upd startFrame endFrame).getD 0 dummyResult).status
      = .Tracked
    ∧ ∀ i : Nat, i + 1 < (sessionOf s v initialRect upd startFrame endFrame).length →
      ((sessionOf s v initialRect upd startFrame endFrame).getD (i + 1) dummyResult).status
        = .Lost →
      ((sessionOf s v initialRect upd startFrame endFrame).getD (i + 1) dummyResult).box
        = ((sessionOf s v initialRect upd startFrame endFrame).getD i dummyResult).box := by
  have hcond : ¬(initialRect.width ≤ 0 ∨ initialRect.height ≤ 0) := by
    push_neg; exact ⟨hw, hh⟩
  have hrs : sessionOf s v initialRect upd startFrame endFrame
      = (⟨startFrame, initialRect, 1, .Tracked⟩ : SessionResult)
        :: runFrames upd ⟨startFrame, initialRect, 1, .Tracked⟩ (startFrame + 1)
            (endFrame - startFrame).toNat := by
    simp [sessionOf, trackObject, hcond, not_lt.mpr hse]
  rw [hrs]
  refine ⟨rfl, ?_⟩
  intro i hi hlost
  simp only [List.length_cons, runFrames_length] at hi
  cases i with
  | zero =>
    simp only [List.getD_cons_succ, List.getD_cons_zero] at hlost ⊢
    rw [runFrames_getD_zero upd _ _ _ (by omega)] at hlost ⊢
    exact stepFrame_lost_box _ _ _ hlost
  | succ i =>
    simp only [List.getD_cons_succ] at hlost ⊢
    exact runFrames_lost_holds_last upd _ _ _ i (by omega) hlost

/-- Witness for C2 at a concrete run in which frames 2 and 3 are lost. -/
theorem trackObject_lost_holds_last_witness :
    ((sessionOf ⟨"", []⟩ "b.mp4" ⟨2, 3, 8, 6⟩
        (fun n => if 2 ≤ n then .fail else .ok ⟨4, 4, 8, 6⟩ 1) 0 3).getD
          0 dummyResult).status = .Tracked
    ∧ ∀ i : Nat, i + 1 < (sessionOf ⟨"", []⟩ "b.mp4" ⟨2, 3, 8, 6⟩
        (fun n => if 2 ≤ n then .fail else .ok ⟨4, 4, 8, 6⟩ 1) 0 3).length →
      ((sessionOf ⟨"", []⟩ "b.mp4" ⟨2, 3, 8, 6⟩
        (fun n => if 2 ≤ n then .fail else .ok ⟨4, 4, 8, 6⟩ 1) 0 3).getD
          (i + 1) dummyResult).status = .Lost →
      ((sessionOf ⟨"", []⟩ "b.mp4" ⟨2, 3, 8, 6⟩
        (fun n => if 2 ≤ n then .fail else .ok ⟨4, 4, 8, 6⟩ 1) 0 3).getD
          (i + 1) dummyResult).box
        = ((sessionOf ⟨"", []⟩ "b.mp4" ⟨2, 3, 8, 6⟩
            (fun n => if 2 ≤ n then .fail else .ok ⟨4, 4, 8, 6⟩ 1) 0 3).getD
              i dummyResult).box :=
  trackObject_lost_holds_last ⟨"", []⟩ "b.mp4" ⟨2, 3, 8, 6⟩
    (fun n => if 2 ≤ n then .fail else .ok ⟨4, 4, 8, 6⟩ 1) 0 3
    (by decide) (by decide) (by decide)

theorem runFrames_mem_bounds (upd : Int → UpdateOutcome)
    (hc : ∀ (n : Int) (b : QRect) (c : ℚ), upd n = .ok b c → 0 ≤ c ∧ c ≤ 1) :
    ∀ (k : Nat) (prev : SessionResult) (n : Int), 0 ≤ n →
      ∀ r ∈ runFrames upd prev n k,
        0 ≤ r.frameNumber ∧ 0 ≤ r.confidence ∧ r.confidence ≤ 1
          ∧ (r.status = .Lost → r.confidence = 0) := by
  intro k
  induction k with
  | zero => intro prev n _ r hr; simp [runFrames] at hr
  | succ k ih =>
    intro prev n hn r hr
    simp only [runFrames, List.mem_cons] at hr
    rcases hr with hr | hr
    · subst hr
      cases hu : upd n with
      | ok b c =>
        rcases hc n b c hu with ⟨h0, h1⟩
        simp [stepFrame, hu, hn, h0, h1]
      | fail => simp [stepFrame, hu, hn]
    · exact ih _ (n + 1) (by omega) r hr

/-- C3 (amended): every result produced by a session has `frameNumber ≥ 0`
(when the tracked range starts at a nonnegative frame), a bounding box, a
confidence in `[0, 1]` (when the tracker honours its contract of reporting
confidences in `[0, 1]`), and a `Lost` result always has confidence `0`. -/
theorem trackObject_result_fields (s : TrackerState) (v : String)
    (initialRect : QRect) (upd : Int → UpdateOutcome) (startFrame endFrame : Int)
    (hw : 0 < initialRect.width) (hh : 0 < initialRect.height)
    (hsf : 0 ≤ startFrame) (hse : startFrame ≤ endFrame)
    (hc : ∀ (n : Int) (b : QRect) (c : ℚ), upd n = .ok b c → 0 ≤ c ∧ c ≤ 1) :
    ∀ r ∈ sessionOf s v initialRect upd startFrame endFrame,
      0 ≤ r.frameNumber ∧ 0 ≤ r.confidence ∧ r.confidence ≤ 1
        ∧ (r.status = .Lost → r.confidence = 0) := by
  have hcond : ¬(initialRect.width ≤ 0 ∨ initialRect.height ≤ 0) := by
    push_neg; exact ⟨hw, hh⟩
  have hrs : sessionOf s v initialRect upd startFrame endFrame
      = (⟨startFrame, initialRect, 1, .Tracked⟩ : SessionResult)
        :: runFrames upd ⟨startFrame, initialRect, 1, .Tracked⟩ (startFrame + 1)
            (endFrame - startFrame).toNat := by
    simp [sessionOf, trackObject, hcond, not_lt.mpr hse]
  rw [hrs]
  intro r hr
  rcases List.mem_cons.mp hr with hr | hr
  · subst hr
    refine ⟨hsf, by norm_num, by norm_num, by simp⟩
  · exact runFrames_mem_bounds upd hc _ _ (startFrame + 1) (by omega) r hr

/-- Witness for C3 (amended) at a concrete run with a failing frame,
instantiated at the `Lost` result of frame 1. -/
theorem trackObject_result_fields_witness :
    0 ≤ ((sessionOf ⟨"", []⟩ "c.mp4" ⟨0, 0, 4, 4⟩
        (fun n => if n = 1 then .fail else .ok ⟨1, 0, 4, 4⟩ (1/2)) 0 2).getD
          1 dummyResult).frameNumber
    ∧ 0 ≤ ((sessionOf ⟨"", []⟩ "c.mp4" ⟨0, 0, 4, 4⟩
        (fun n => if n = 1 then .fail else .ok ⟨1, 0, 4, 4⟩ (1/2)) 0 2).getD
          1 dummyResult).confidence
    ∧ ((sessionOf ⟨"", []⟩ "c.mp4" ⟨0, 0, 4, 4⟩
        (fun n => if n = 1 then .fail else .ok ⟨1, 0, 4, 4⟩ (1/2)) 0 2).getD
          1 dummyResult).confidence ≤ 1
    ∧ (((sessionOf ⟨"", []⟩ "c.mp4" ⟨0, 0, 4, 4⟩
        (fun n => if n = 1 then .fail else .ok ⟨1, 0, 4, 4⟩ (1/2)) 0 2).getD
          1 dummyResult).status = .Lost →
        ((sessionOf ⟨"", []⟩ "c.mp4" ⟨0, 0, 4, 4⟩
          (fun n => if n = 1 then .fail else .ok ⟨1, 0, 4, 4⟩ (1/2)) 0 2).getD
            1 dummyResult).confidence = 0) :=
  trackObject_result_fields ⟨"", []⟩ "c.mp4" ⟨0, 0, 4, 4⟩
    (fun n => if n = 1 then .fail else .ok ⟨1, 0, 4, 4⟩ (1/2)) 0 2
    (by decide) (by decide) (by decide) (by decide)
    (by
      intro n b c h
      dsimp at h
      split at h
      · cases h
      · cases h
        norm_num)
    (((sessionOf ⟨"", []⟩ "c.mp4" ⟨0, 0, 4, 4⟩
        (fun n => if n = 1 then .fail else .ok ⟨1, 0, 4, 4⟩ (1/2)) 0 2).getD
          1 dummyResult))
    (by decide)

/-- Counterexample for C3 as stated: the C++ `TrackingResult` struct has no
status field, so a downstream consumer cannot always distinguish `Tracked`
from `Lost` from the stored result alone.  Two concrete sessions — one
whose tracker succeeds on frame 1 reporting confidence `0` with an
unchanged box, one whose tracker loses frame 1 — have different spec-level
statuses on frame 1 but identical stored `TrackingResult` sequences. -/
theorem trackingResult_status_not_representable :
    ((sessionOf ⟨"", []⟩ "d.mp4" ⟨0, 0, 5, 5⟩ (fun _ => .ok ⟨0, 0, 5, 5⟩ 0) 0 1).map
        toTrackingResult
      = (sessionOf ⟨"", []⟩ "d.mp4" ⟨0, 0, 5, 5⟩ (fun _ => .fail) 0 1).map
          toTrackingResult)
    ∧ ((sessionOf ⟨"", []⟩ "d.mp4" ⟨0, 0, 5, 5⟩ (fun _ => .ok ⟨0, 0, 5, 5⟩ 0) 0 1).getD
        1 dummyResult).status = .Tracked
    ∧ ((sessionOf ⟨"", []⟩ "d.mp4" ⟨0, 0, 5, 5⟩ (fun _ => .fail) 0 1).getD
        1 dummyResult).status = .Lost := by
  decide

/-- C4: a tracking request whose initial box has zero area fails with
`InvalidInput` before any frame is read from the source, and the stored
results sequence (indeed the whole tracker state) is unchanged. -/
theorem trackObject_zero_area_rejected (s : TrackerState) (v : String)
    (initialRect : QRect) (initOk : Bool) (upd : Int → UpdateOutcome)
    (startFrame endFrame : Int) (hz : initialRect.area = 0) :
    trackObject s v initialRect initOk upd startFrame endFrame
      = ⟨false, some .InvalidInput, 0, s⟩ := by
  have hcond : initialRect.width ≤ 0 ∨ initialRect.height ≤ 0 := by
    rcases mul_eq_zero.mp hz with h | h
    · exact Or.inl (le_of_eq h)
    · exact Or.inr (le_of_eq h)
  simp [trackObject, hcond]

/-- Witness for C4: a zero-width box is rejected with the state intact. -/
theorem trackObject_zero_area_rejected_witness :
    QRect.area ⟨3, 4, 0, 10⟩ = 0
    ∧ trackObject ⟨"old.mp4", [dummyResult]⟩ "e.mp4" ⟨3, 4, 0, 10⟩ true
        (fun _ => .fail) 0 5
      = ⟨false, some .InvalidInput, 0, ⟨"old.mp4", [dummyResult]⟩⟩ :=
  ⟨by decide,
   trackObject_zero_area_rejected ⟨"old.mp4", [dummyResult]⟩ "e.mp4" ⟨3, 4, 0, 10⟩
     true (fun _ => .fail) 0 5 (by decide)⟩

/-- The effect names recognised by `applyEffectToTrackedObject`, from the
header's doc comment (line 115): blur, pixelate, highlight, overlay. -/
def supportedEffects : List String := ["blur", "pixelate", "highlight", "overlay"]

/-- Documented lower bound for the blur radius (the minimum valid radius of
end-to-end scenario C). -/
def blurRadiusMin : Int := 1

/-- Documented upper bound for the blur radius. -/
def blurRadiusMax : Int := 100

/-- Documented lower bound for the pixelation block size. -/
def pixelSizeMin : Int := 2

/-- Documented upper bound for the pixelation block size. -/
def pixelSizeMax : Int := 64

/-- Clamp an integer parameter into `[lo, hi]`. -/
def clampInt (lo hi v : Int) : Int := min hi (max lo v)

/-- Clamp a rational parameter into `[lo, hi]`. -/
def clampRat (lo hi v : ℚ) : ℚ := min hi (max lo v)

/-- Modelled from the spec: the named effect-parameter set of §4.5
(`effectParams`, a `QVariantMap` in the header), restricted to the numeric
parameters the claims are about. -/
structure EffectParams where
  blurRadius : Int
  pixelSize : Int
  highlightIntensity : ℚ
deriving DecidableEq, Repr

/-- Modelled from the spec: the validated per-effect configuration after
parameter clamping. -/
inductive EffectConfig where
  | blur (radius : Int)
  | pixelate (blockSize : Int)
  | highlight (intensity : ℚ)
  | overlay
deriving DecidableEq, Repr

/-- Modelled from the spec: the body of
`ObjectTracker::applyEffectToTrackedObject` is not in the repository
sources (only its declaration, header lines 119-124).  Following §4.5 and
§7: an unknown effect name fails with `UnsupportedEffect`; for a recognised
effect, out-of-range numeric parameters are clamped to their documented
bounds rather than failing.  The subsequent pixel compositing consumes
external frame streams and is outside the embedded state, so the call is
modelled up to its validated effect configuration. -/
def applyEffectToTrackedObject (s : TrackerState) (effectType : String)
    (effectParams : EffectParams) : Except TrackerError EffectConfig :=
  if effectType = "blur" then
    .ok (.blur (clampInt blurRadiusMin blurRadiusMax effectParams.blurRadius))
  else if effectType = "pixelate" then
    .ok (.pixelate (clampInt pixelSizeMin pixelSizeMax effectParams.pixelSize))
  else if effectType = "highlight" then
    .ok (.highlight (clampRat 0 1 effectParams.highlightIntensity))
  else if effectType = "overlay" then
    .ok .overlay
  else
    .error .UnsupportedEffect

/-- C5: `applyEffectToTrackedObject` fails with `UnsupportedEffect` exactly
on effect names outside {blur, pixelate, highlight, overlay}; every
recognised effect succeeds, and an out-of-range blur radius is clamped to
its documented bounds (in particular a radius below the minimum becomes
the minimum valid radius) rather than failing the call. -/
theorem applyEffect_validation (s : TrackerState) (effectType : String)
    (effectParams : EffectParams) :
    (effectType ∉ supportedEffects →
      applyEffectToTrackedObject s effectType effectParams = .error .UnsupportedEffect)
    ∧ (∀ e ∈ supportedEffects, ∃ cfg,
        applyEffectToTrackedObject s e effectParams = .ok cfg)
    ∧ applyEffectToTrackedObject s "blur" effectParams
        = .ok (.blur (clampInt blurRadiusMin blurRadiusMax effectParams.blurRadius))
    ∧ blurRadiusMin ≤ clampInt blurRadiusMin blurRadiusMax effectParams.blurRadius
    ∧ clampInt blurRadiusMin blurRadiusMax effectParams.blurRadius ≤ blurRadiusMax
    ∧ (effectParams.blurRadius < blurRadiusMin →
        applyEffectToTrackedObject s "blur" effectParams = .ok (.blur blurRadiusMin)) := by
  refine ⟨?_, ?_, rfl, ?_, ?_, ?_⟩
  · intro hnot
    have h1 : effectType ≠ "blur" := by intro h; exact hnot (by simp [supportedEffects, h])
    have h2 : effectType ≠ "pixelate" := by intro h; exact hnot (by simp [supportedEffects, h])
    have h3 : effectType ≠ "highlight" := by intro h; exact hnot (by simp [supportedEffects, h])
    have h4 : effectType ≠ "overlay" := by intro h; exact hnot (by simp [supportedEffects, h])
    simp [applyEffectToTrackedObject, h1, h2, h3, h4]
  · intro e he
    simp only [supportedEffects, List.mem_cons, List.mem_singleton] at he
    rcases he with rfl | rfl | rfl | (rfl | h)
    · exact ⟨_, rfl⟩
    · exact ⟨_, rfl⟩
    · exact ⟨_, rfl⟩
    · exact ⟨_, rfl⟩
    · simp at h
  · simp only [clampInt, blurRadiusMin, blurRadiusMax]
    omega
  · simp only [clampInt, blurRadiusMin, blurRadiusMax]
    omega
  · intro hlt
    simp only [applyEffectToTrackedObject, if_pos rfl, clampInt]
    have : max blurRadiusMin effectParams.blurRadius = blurRadiusMin := max_eq_left hlt.le
    rw [this]
    have : min blurRadiusMax blurRadiusMin = blurRadiusMin := by
      simp only [blurRadiusMin, blurRadiusMax]; omega
    rw [this]
    simp

/-- Witness for C5: an unknown effect "sepia" is rejected and a negative
blur radius is clamped to the minimum valid radius. -/
theorem applyEffect_validation_witness :
    applyEffectToTrackedObject ⟨"", []⟩ "sepia" ⟨-5, 0, 2⟩ = .error .UnsupportedEffect
    ∧ applyEffectToTrackedObject ⟨"", []⟩ "blur" ⟨-5, 0, 2⟩ = .ok (.blur blurRadiusMin) :=
  ⟨(applyEffect_validation ⟨"", []⟩ "sepia" ⟨-5, 0, 2⟩).1 (by decide),
   (applyEffect_validation ⟨"", []⟩ "blur" ⟨-5, 0, 2⟩).2.2.2.2.2 (by decide)⟩

/-- Modelled from the spec: the expansion factor of
`ObjectTracker::extractTrackedObject` is at least `1.0`; a value below
`1.0` is clamped to `1.0` (§4.6). -/
def clampExpand (expandRect : ℚ) : ℚ := max 1 expandRect

/-- Output dimensions of the extracted region for a given box and an
(already clamped) expansion factor: `round(width * factor)` by
`round(height * factor)` (§4.6 and §8). -/
def outputDims (box : QRect) (factor : ℚ) : Int × Int :=
  (round ((box.width : ℚ) * factor), round ((box.height : ℚ) * factor))

/-- Modelled from the spec: the body of `ObjectTracker::extractTrackedObject`
is not in the repository sources (only its declaration, header lines
133-137).  Following §4.6 and §6: the sink's fixed output dimensions are
declared once from the first result's box expanded by the clamped
`expandRect`, and one output frame is produced per tracking result, resized
to those dimensions.  Pixel contents come from external frame streams, so
each output frame is modelled by its dimensions. -/
def extractTrackedObject (s : TrackerState) (expandRect : ℚ) : List (Int × Int) :=
  match s.trackingResults with
  | [] => []
  | r0 :: rest => (r0 :: rest).map (fun _ => outputDims r0.box (clampExpand expandRect))

/-- C6: an `expandRect` below `1.0` is clamped to `1.0`, and for a session
whose tracked box has constant size every output frame of
`extractTrackedObject` has dimensions
`round(box.width * expandRect) × round(box.height * expandRect)` (with the
clamped factor). -/
theorem extractTrackedObject_dims (s : TrackerState) (expandRect : ℚ)
    (w h : Int)
    (hconst : ∀ r ∈ s.trackingResults, r.box.width = w ∧ r.box.height = h) :
    (expandRect < 1 → clampExpand expandRect = 1)
    ∧ ∀ d ∈ extractTrackedObject s expandRect,
        d = (round ((w : ℚ) * clampExpand expandRect),
             round ((h : ℚ) * clampExpand expandRect)) := by
  constructor
  · intro hlt
    exact max_eq_left hlt.le
  · intro d hd
    unfold extractTrackedObject at hd
    rcases hrs : s.trackingResults with _ | ⟨r0, rest⟩ <;> rw [hrs] at hd
    · simp at hd
    · dsimp only at hd
      rcases List.mem_map.mp hd with ⟨r, _, rfl⟩
      have h0 := hconst r0 (by rw [hrs]; exact List.mem_cons_self r0 rest)
      rw [outputDims, h0.1, h0.2]

/-- Witness for C6 at a concrete two-frame session with a constant 10×20
box and `expandRect = 1/2` (clamped to 1). -/
theorem extractTrackedObject_dims_witness :
    ((1 : ℚ)/2 < 1 → clampExpand (1/2) = 1)
    ∧ ∀ d ∈ extractTrackedObject
        ⟨"f.mp4", [⟨0, ⟨0, 0, 10, 20⟩, 1, .Tracked⟩, ⟨1, ⟨2, 2, 10, 20⟩, 0, .Lost⟩]⟩
        (1/2),
        d = (round ((10 : ℚ) * clampExpand (1/2)), round ((20 : ℚ) * clampExpand (1/2))) :=
  extractTrackedObject_dims
    ⟨"f.mp4", [⟨0, ⟨0, 0, 10, 20⟩, 1, .Tracked⟩, ⟨1, ⟨2, 2, 10, 20⟩, 0, .Lost⟩]⟩
    (1/2) 10 20 (by decide)

/-- A point of the centroid-and-scale path built from a session (§4.7). -/
structure PathPoint where
  frame : Int
  cx : ℚ
  cy : ℚ
  scaleVal : ℚ
deriving DecidableEq, Repr, Inhabited

/-- Modelled from the spec: the centroid-and-scale path of §4.7, one point
per tracking result: centroid `(x + width/2, y + height/2)` and the box
size relative to the first frame's box.  The spec words the size component
as the diagonal ratio; the model carries the squared-diagonal ratio (an
exact rational), a strictly monotone reparametrisation that the counting
and endpoint properties under verification do not depend on. -/
def buildPath (rs : List SessionResult) : List PathPoint :=
  match rs with
  | [] => []
  | r0 :: rest =>
    let d0 : ℚ := (r0.box.width : ℚ) ^ 2 + (r0.box.height : ℚ) ^ 2
    (r0 :: rest).map (fun r =>
      ⟨r.frameNumber, (r.box.x : ℚ) + (r.box.width : ℚ) / 2,
        (r.box.y : ℚ) + (r.box.height : ℚ) / 2,
        ((r.box.width : ℚ) ^ 2 + (r.box.height : ℚ) ^ 2) / d0⟩)

/-- Deviation of path point `i` from the linear interpolation between path
points `a` and `b` (§4.7): the largest absolute interpolation error over
the two centroid coordinates and the scale component. -/
def interpDev (pts : List PathPoint) (a b i : Nat) : ℚ :=
  let pa := pts.getD a default
  let pb := pts.getD b default
  let pt := pts.getD i default
  let t : ℚ := ((pt.frame : ℚ) - (pa.frame : ℚ)) / ((pb.frame : ℚ) - (pa.frame : ℚ))
  max |pa.cx + t * (pb.cx - pa.cx) - pt.cx|
    (max |pa.cy + t * (pb.cy - pa.cy) - pt.cy|
      |pa.scaleVal + t * (pb.scaleVal - pa.scaleVal) - pt.scaleVal|)

theorem interpDev_nonneg (pts : List PathPoint) (a b i : Nat) :
    0 ≤ interpDev pts a b i :=
  le_trans (abs_nonneg _) (le_max_left _ _)

/-- First index attaining the maximum of `f` over a list of indices,
together with that maximum value. -/
def argmaxQ (f : Nat → ℚ) : List Nat → Option (Nat × ℚ)
  | [] => none
  | i :: is =>
    match argmaxQ f is with
    | none => some (i, f i)
    | some (j, v) => if v ≤ f i then some (i, f i) else some (j, v)

theorem argmaxQ_val (f : Nat → ℚ) :
    ∀ (l : List Nat) (m : Nat) (v : ℚ), argmaxQ f l = some (m, v) → v = f m := by
  intro l
  induction l with
  | nil => intro m v h; simp [argmaxQ] at h
  | cons i is ih =>
    intro m v h
    rcases hr : argmaxQ f is with _ | ⟨j, w⟩ <;> simp only [argmaxQ, hr] at h
    · obtain ⟨rfl, rfl⟩ := h
      rfl
    · split at h
      · simp only [Option.some.injEq, Prod.mk.injEq] at h
        obtain ⟨rfl, rfl⟩ := h
        rfl
      · simp only [Option.some.injEq, Prod.mk.injEq] at h
        obtain ⟨rfl, rfl⟩ := h
        exact ih j w hr

theorem argmaxQ_ne_none (f : Nat → ℚ) (l : List Nat) (hl : l ≠ []) :
    argmaxQ f l ≠ none := by
  cases l with
  | nil => exact absurd rfl hl
  | cons i is =>
    simp only [argmaxQ]
    rcases hr : argmaxQ f is with _ | ⟨j, v⟩ <;> simp only [hr]
    · simp
    · split <;> simp

/-- The interior indices strictly between `a` and `b`. -/
def interiorRange (a b : Nat) : List Nat :=
  (List.range (b - a - 1)).map (fun k => a + 1 + k)

theorem interiorRange_length (a b : Nat) : (interiorRange a b).length = b - a - 1 := by
  simp [interiorRange]

theorem interiorRange_ne_nil (a b : Nat) (h : a + 1 < b) : interiorRange a b ≠ [] := by
  intro hnil
  have := interiorRange_length a b
  rw [hnil] at this
  simp at this
  omega

/-- Modelled from the spec: the Ramer-Douglas-Peucker-style curve
simplification of §4.7, returning the retained interior indices strictly
between anchors `a` and `b`.  The interior point deviating most from the
interpolation between the anchors is dropped together with all other
interior points when that deviation is below the tolerance, and is
otherwise retained, splitting the range at it.  (The split index is clamped
into the open interval; the clamp never fires for an argmax taken over
`interiorRange a b` and only serves the termination measure.) -/
def rdp (dev : Nat → Nat → Nat → ℚ) (tol : ℚ) (a b : Nat) : List Nat :=
  if h : b ≤ a + 1 then []
  else
    match argmaxQ (dev a b) (interiorRange a b) with
    | none => []
    | some (m, v) =>
      if v < tol then []
      else
        let m2 := min (max m (a + 1)) (b - 1)
        rdp dev tol a m2 ++ m2 :: rdp dev tol m2 b
termination_by b - a
decreasing_by
  · omega
  · omega

/-- With a larger tolerance the simplification never retains more points:
both runs examine the same deviation maxima and split at the same indices,
and the larger tolerance only stops earlier. -/
theorem rdp_length_mono (dev : Nat → Nat → Nat → ℚ) (t1 t2 : ℚ) (h12 : t1 ≤ t2)
    (a b : Nat) : (rdp dev t2 a b).length ≤ (rdp dev t1 a b).length := by
  rw [rdp, rdp]
  split
  · simp
  · rename_i h
    split
    · simp
    · rename_i m v hm
      by_cases h1 : v < t1
      · rw [if_pos h1, if_pos (lt_of_lt_of_le h1 h12)]
      · by_cases h2 : v < t2
        · rw [if_pos h2]
          simp
        · rw [if_neg h1, if_neg h2]
          dsimp only
          simp only [List.length_append, List.length_cons]
          have ih1 := rdp_length_mono dev t1 t2 h12 a (min (max m (a + 1)) (b - 1))
          have ih2 := rdp_length_mono dev t1 t2 h12 (min (max m (a + 1)) (b - 1)) b
          omega
termination_by b - a
decreasing_by
  · omega
  · omega

/-- With tolerance `0` and a nonnegative deviation measure, no interior
point is ever dropped: the simplification retains `b - a - 1` interior
indices. -/
theorem rdp_zero_length (dev : Nat → Nat → Nat → ℚ)
    (hdev : ∀ a b i, 0 ≤ dev a b i) (a b : Nat) :
    (rdp dev 0 a b).length = b - a - 1 := by
  rw [rdp]
  split
  · rename_i h
    simp only [List.length_nil]
    omega
  · rename_i h
    split
    · rename_i hm
      exact absurd hm (argmaxQ_ne_none _ _ (interiorRange_ne_nil a b (by omega)))
    · rename_i m v hm
      have hv : v = dev a b m := argmaxQ_val _ _ _ _ hm
      rw [if_neg (by rw [hv]; exact not_lt.mpr (hdev a b m))]
      dsimp only
      simp only [List.length_append, List.length_cons]
      have ih1 := rdp_zero_length dev hdev a (min (max m (a + 1)) (b - 1))
      have ih2 := rdp_zero_length dev hdev (min (max m (a + 1)) (b - 1)) b
      omega
termination_by b - a
decreasing_by
  · omega
  · omega

/-- A `MotionKeyframe` record of §3: frame, position, scale, confidence. -/
structure MotionKeyframe where
  frame : Int
  x : ℚ
  y : ℚ
  scaleVal : ℚ
  confidence : ℚ
deriving DecidableEq, Repr

/-- Modelled from the spec: the retained indices of the keyframe reduction
over a path of `n` points (§4.7): the first and last index are always
retained, with the retained interior indices computed by `rdp`. -/
def keyframeIdxs (dev : Nat → Nat → Nat → ℚ) (tol : ℚ) : Nat → List Nat
  | 0 => []
  | 1 => [0]
  | n + 2 => 0 :: (rdp dev tol 0 (n + 1) ++ [n + 1])

/-- The keyframe record emitted for path index `i` of a session. -/
def motionPointAt (rs : List SessionResult) (i : Nat) : MotionKeyframe :=
  let p := (buildPath rs).getD i default
  ⟨p.frame, p.cx, p.cy, p.scaleVal, (rs.getD i dummyResult).confidence⟩

/-- Modelled from the spec: the body of
`ObjectTracker::calculateMotionKeyframes` is not in the repository sources
(only its `const` declaration, header line 143).  Following §4.7: it runs
once over the completed session's stored results, builds the
centroid-and-scale path, applies the curve-simplification pass with the
configurable tolerance, and emits one `MotionKeyframe` per retained index
in order.  (The header serialises this list as a flat record document; the
claims under verification are about the list itself.) -/
def calculateMotionKeyframes (tol : ℚ) (s : TrackerState) : List MotionKeyframe :=
  (keyframeIdxs (interpDev (buildPath s.trackingResults)) tol
      (buildPath s.trackingResults).length).map (motionPointAt s.trackingResults)

theorem buildPath_length (rs : List SessionResult) :
    (buildPath rs).length = rs.length := by
  cases rs with
  | nil => rfl
  | cons r0 rest => simp [buildPath]

theorem keyframeIdxs_zero_length (dev : Nat → Nat → Nat → ℚ)
    (hdev : ∀ a b i, 0 ≤ dev a b i) (n : Nat) :
    (keyframeIdxs dev 0 n).length = n := by
  match n with
  | 0 => rfl
  | 1 => rfl
  | n + 2 =>
    simp only [keyframeIdxs, List.length_cons, List.length_append,
      List.length_nil, rdp_zero_length dev hdev 0 (n + 1)]
    omega

theorem keyframeIdxs_length_mono (dev : Nat → Nat → Nat → ℚ) (t1 t2 : ℚ)
    (h12 : t1 ≤ t2) (n : Nat) :
    (keyframeIdxs dev t2 n).length ≤ (keyframeIdxs dev t1 n).length := by
  match n with
  | 0 => exact le_refl _
  | 1 => exact le_refl _
  | n + 2 =>
    simp only [keyframeIdxs, List.length_cons, List.length_append, List.length_nil]
    have := rdp_length_mono dev t1 t2 h12 0 (n + 1)
    omega

theorem keyframeIdxs_mem_first (dev : Nat → Nat → Nat → ℚ) (tol : ℚ) (n : Nat)
    (hn : 0 < n) : 0 ∈ keyframeIdxs dev tol n := by
  rcases n with _ | (_ | n)
  · omega
  · simp [keyframeIdxs]
  · simp [keyframeIdxs]

theorem keyframeIdxs_mem_last (dev : Nat → Nat → Nat → ℚ) (tol : ℚ) (n : Nat)
    (hn : 0 < n) : n - 1 ∈ keyframeIdxs dev tol n := by
  rcases n with _ | (_ | n)
  · omega
  · simp [keyframeIdxs]
  · simp only [keyframeIdxs, List.mem_cons, List.mem_append, List.mem_singleton]
    right
    right
    left
    omega

theorem getD_map_lt {α β : Type} (g : α → β) (d : β) (d2 : α) :
    ∀ (l : List α) (i : Nat), i < l.length → (l.map g).getD i d = g (l.getD i d2) := by
  intro l
  induction l with
  | nil => intro i h; simp at h
  | cons x xs ih =>
    intro i h
    cases i with
    | zero => rfl
    | succ i =>
      simp only [List.map_cons, List.getD_cons_succ]
      exact ih i (by simpa using h)

theorem buildPath_getD_frame (rs : List SessionResult) (i : Nat)
    (hi : i < rs.length) :
    ((buildPath rs).getD i default).frame = (rs.getD i dummyResult).frameNumber := by
  cases rs with
  | nil => simp at hi
  | cons r0 rest =>
    simp only [buildPath]
    rw [getD_map_lt _ _ dummyResult _ i (by simpa using hi)]

/-- C7: the motion-keyframe count is monotonically non-increasing in the
simplification tolerance: tolerance `0` yields one keyframe per tracking
result, and for tolerances `t1 ≤ t2` the count at `t2` is at most the
count at `t1`. -/
theorem calculateMotionKeyframes_count (s : TrackerState) (t1 t2 : ℚ)
    (h12 : t1 ≤ t2) :
    (calculateMotionKeyframes 0 s).length = s.trackingResults.length
    ∧ (calculateMotionKeyframes t2 s).length ≤ (calculateMotionKeyframes t1 s).length := by
  constructor
  · simp only [calculateMotionKeyframes, List.length_map]
    rw [keyframeIdxs_zero_length _ (fun a b i => interpDev_nonneg _ a b i),
      buildPath_length]
  · simp only [calculateMotionKeyframes, List.length_map]
    exact keyframeIdxs_length_mono _ t1 t2 h12 _

/-- Witness for C7 at a concrete three-result session and tolerances
`1 ≤ 3/2`. -/
theorem calculateMotionKeyframes_count_witness :
    (calculateMotionKeyframes 0
        ⟨"g.mp4", [⟨0, ⟨0, 0, 4, 4⟩, 1, .Tracked⟩, ⟨1, ⟨8, 0, 4, 4⟩, 1, .Tracked⟩,
          ⟨2, ⟨2, 0, 4, 4⟩, 1, .Tracked⟩]⟩).length
      = ([⟨0, ⟨0, 0, 4, 4⟩, 1, .Tracked⟩, ⟨1, ⟨8, 0, 4, 4⟩, 1, .Tracked⟩,
          ⟨2, ⟨2, 0, 4, 4⟩, 1, .Tracked⟩] : List SessionResult).length
    ∧ (calculateMotionKeyframes (3/2)
        ⟨"g.mp4", [⟨0, ⟨0, 0, 4, 4⟩, 1, .Tracked⟩, ⟨1, ⟨8, 0, 4, 4⟩, 1, .Tracked⟩,
          ⟨2, ⟨2, 0, 4, 4⟩, 1, .Tracked⟩]⟩).length
      ≤ (calculateMotionKeyframes 1
        ⟨"g.mp4", [⟨0, ⟨0, 0, 4, 4⟩, 1, .Tracked⟩, ⟨1, ⟨8, 0, 4, 4⟩, 1, .Tracked⟩,
          ⟨2, ⟨2, 0, 4, 4⟩, 1, .Tracked⟩]⟩).length :=
  calculateMotionKeyframes_count
    ⟨"g.mp4", [⟨0, ⟨0, 0, 4, 4⟩, 1, .Tracked⟩, ⟨1, ⟨8, 0, 4, 4⟩, 1, .Tracked⟩,
      ⟨2, ⟨2, 0, 4, 4⟩, 1, .Tracked⟩]⟩ 1 (3/2) (by norm_num)

/-- C8: for every nonempty session and every tolerance, the keyframe list
contains a keyframe for the first frame of the tracked range and a
keyframe for the last frame of the tracked range. -/
theorem calculateMotionKeyframes_endpoints (s : TrackerState) (tol : ℚ)
    (hne : s.trackingResults ≠ []) :
    (∃ kf ∈ calculateMotionKeyframes tol s,
        kf.frame = (s.trackingResults.getD 0 dummyResult).frameNumber)
    ∧ (∃ kf ∈ calculateMotionKeyframes tol s,
        kf.frame = (s.trackingResults.getD (s.trackingResults.length - 1)
          dummyResult).frameNumber) := by
  have hlen : (buildPath s.trackingResults).length = s.trackingResults.length :=
    buildPath_length _
  have hpos : 0 < s.trackingResults.length := List.length_pos.mpr hne
  constructor
  · refine ⟨motionPointAt s.trackingResults 0, ?_, ?_⟩
    · exact List.mem_map_of_mem _
        (keyframeIdxs_mem_first _ tol _ (by rw [hlen]; exact hpos))
    · show ((buildPath s.trackingResults).getD 0 default).frame = _
      exact buildPath_getD_frame _ 0 hpos
  · refine ⟨motionPointAt s.trackingResults (s.trackingResults.length - 1), ?_, ?_⟩
    · have hmem : s.trackingResults.length - 1
          ∈ keyframeIdxs (interpDev (buildPath s.trackingResults)) tol
              (buildPath s.trackingResults).length := by
        rw [← hlen]
        exact keyframeIdxs_mem_last _ tol _ (by rw [hlen]; exact hpos)
      exact List.mem_map_of_mem _ hmem
    · show ((buildPath s.trackingResults).getD _ default).frame = _
      exact buildPath_getD_frame _ _ (by omega)

/-- Witness for C8 at a concrete two-result session, tolerance `5`. -/
theorem calculateMotionKeyframes_endpoints_witness :
    (∃ kf ∈ calculateMotionKeyframes 5
        ⟨"h.mp4", [⟨3, ⟨0, 0, 4, 4⟩, 1, .Tracked⟩, ⟨4, ⟨1, 1, 4, 4⟩, 1, .Tracked⟩]⟩,
        kf.frame = (([⟨3, ⟨0, 0, 4, 4⟩, 1, .Tracked⟩, ⟨4, ⟨1, 1, 4, 4⟩, 1, .Tracked⟩] :
          List SessionResult).getD 0 dummyResult).frameNumber)
    ∧ (∃ kf ∈ calculateMotionKeyframes 5
        ⟨"h.mp4", [⟨3, ⟨0, 0, 4, 4⟩, 1, .Tracked⟩, ⟨4, ⟨1, 1, 4, 4⟩, 1, .Tracked⟩]⟩,
        kf.frame = (([⟨3, ⟨0, 0, 4, 4⟩, 1, .Tracked⟩, ⟨4, ⟨1, 1, 4, 4⟩, 1, .Tracked⟩] :
          List SessionResult).getD
            (([⟨3, ⟨0, 0, 4, 4⟩, 1, .Tracked⟩, ⟨4, ⟨1, 1, 4, 4⟩, 1, .Tracked⟩] :
              List SessionResult).length - 1) dummyResult).frameNumber) :=
  calculateMotionKeyframes_endpoints
    ⟨"h.mp4", [⟨3, ⟨0, 0, 4, 4⟩, 1, .Tracked⟩, ⟨4, ⟨1, 1, 4, 4⟩, 1, .Tracked⟩]⟩ 5
    (by decide)

/-- `ObjectTracker::getTrackingResults` (header line 92): a `const` query
returning the stored results, serialised per result by
`trackingResultToVariantMap`; each record carries the struct's fields
(`toTrackingResult`). -/
def getTrackingResults (s : TrackerState) : List TrackingResult :=
  s.trackingResults.map toTrackingResult

/-- One invocation of either of the two `const` query members of the
header: `getTrackingResults` (line 92) or `calculateMotionKeyframes`
(line 143, with its configurable tolerance). -/
inductive TrackerQuery where
  | getResults
  | motionKeyframes (tol : ℚ)

/-- Run one query against the tracker.  Both members are declared `const`
in the header, so a call returns its output together with the (unchanged)
tracker state; the state component makes that a provable statement rather
than a convention. -/
def runQuery (q : TrackerQuery) (s : TrackerState) :
    (List TrackingResult ⊕ List MotionKeyframe) × TrackerState :=
  match q with
  | .getResults => (Sum.inl (getTrackingResults s), s)
  | .motionKeyframes tol => (Sum.inr (calculateMotionKeyframes tol s), s)

/-- Run a sequence of queries, threading the tracker state. -/
def runQueries : List TrackerQuery → TrackerState →
    List (List TrackingResult ⊕ List MotionKeyframe) × TrackerState
  | [], s => ([], s)
  | q :: qs, s =>
    ((runQuery q s).1 :: (runQueries qs (runQuery q s).2).1,
      (runQueries qs (runQuery q s).2).2)

theorem runQuery_state (q : TrackerQuery) (s : TrackerState) :
    (runQuery q s).2 = s := by
  cases q <;> rfl

/-- C9: `getTrackingResults` and `calculateMotionKeyframes` are pure
queries: running any sequence of them, in any order, leaves the tracker
state (in particular the stored tracking-result sequence) unchanged, and
every call's output equals the query evaluated at the initial state. -/
theorem queries_pure (qs : List TrackerQuery) (s : TrackerState) :
    (runQueries qs s).2 = s
    ∧ (runQueries qs s).1 = qs.map (fun q => (runQuery q s).1) := by
  induction qs with
  | nil => exact ⟨rfl, rfl⟩
  | cons q qs ih =>
    simp only [runQueries, runQuery_state, List.map_cons]
    rcases ih with ⟨h1, h2⟩
    exact ⟨h1, by rw [h2]⟩

end ObjectTracker

namespace AIServices

/-- The whitespace skipped by Qt's numeric string conversions, which trim
via `QChar::isSpace`: the control characters U+0009..U+000D and U+0085,
plus the Unicode separator categories — Zs (U+0020, U+00A0, U+1680,
U+2000..U+200A, U+202F, U+205F, U+3000), Zl (U+2028) and Zp (U+2029). -/
def isQtSpace (c : Char) : Bool :=
  (9 ≤ c.toNat ∧ c.toNat ≤ 13) ∨ c.toNat = 32 ∨ c.toNat = 133 ∨ c.toNat = 160
    ∨ c.toNat = 0x1680 ∨ (0x2000 ≤ c.toNat ∧ c.toNat ≤ 0x200A)
    ∨ c.toNat = 0x2028 ∨ c.toNat = 0x2029 ∨ c.toNat = 0x202F
    ∨ c.toNat = 0x205F ∨ c.toNat = 0x3000

/-- Value of a digit string (most significant digit first). -/
def digitsToNat (ds : List Char) : Nat :=
  ds.foldl (fun acc d => acc * 10 + (d.toNat - 48)) 0

/-- `QString::toInt(&ok)` with the default base 10: surrounding whitespace
is ignored, an optional leading `+` or `-` sign is accepted, the remainder
must be one or more decimal digits, and a value outside the 32-bit `int`
range sets `ok = false`.  `none` models `ok = false`. -/
def qToInt (cs : List Char) : Option Int :=
  let trimmed := ((cs.dropWhile isQtSpace).reverse.dropWhile isQtSpace).reverse
  match trimmed with
  | [] => none
  | c :: rest =>
    let sign : Int := if c = '-' then -1 else 1
    let digits := if c = '-' ∨ c = '+' then rest else c :: rest
    if digits.isEmpty then none
    else if digits.all Char.isDigit then
      let v : Int := sign * (digitsToNat digits : Int)
      if v < -(2 ^ 31) ∨ 2 ^ 31 - 1 < v then none else some v
    else none

/-- `QString::split(":")` with the default `KeepEmptyParts` behaviour. -/
def qSplitColon : List Char → List (List Char)
  | [] => [[]]
  | c :: cs =>
    match qSplitColon cs with
    | [] => if c = ':' then [[], []] else [[c]]
    | p :: ps => if c = ':' then [] :: (p :: ps) else (c :: p) :: ps

/-- How far one call to `AIServices::smartReframe`
(`ai_services.cpp` lines 419-609) gets.  Each `rejected*` constructor is a
branch of the source that emits `processCompleted(false, ...)` and returns
`false` without starting the `python3` process and without creating any
file; `launched` means the frame-processing script was written and
`process.start("python3", args)` was invoked (the call's return value then
depends on the external process's exit code). -/
inductive ReframeStep where
  | rejectedMissingInput
  | rejectedAspectFormat
  | rejectedAspectValues
  | rejectedScriptWrite
  | launched
deriving DecidableEq, Repr

/-- `AIServices::smartReframe` up to the launch of its worker process
(lines 419-444 validate, lines 446-575 write the script and start
`python3`).  In source order: a missing input file is rejected first; then
`targetRatio.split(":")` must have exactly two parts; then both parts must
convert via `QString::toInt` with `ok` set and a strictly positive value;
then the generated script is written (`scriptWriteOk`) and the process is
started.  The validation is frame-independent: no frame is processed
before `launched`. -/
def smartReframe (inputExists : Bool) (targetParts : String)
    (scriptWriteOk : Bool) : ReframeStep :=
  if inputExists = false then .rejectedMissingInput
  else
    match qSplitColon targetParts.toList with
    | [w, h] =>
      match qToInt w, qToInt h with
      | some wv, some hv =>
        if wv ≤ 0 ∨ hv ≤ 0 then .rejectedAspectValues
        else if scriptWriteOk then .launched else .rejectedScriptWrite
      | _, _ => .rejectedAspectValues
    | _ => .rejectedAspectFormat

/-- Whether the external `python3` process is started. -/
def launchesProcess : ReframeStep → Bool
  | .launched => true
  | _ => false

/-- Whether the call was rejected by the up-front validation: it returned
`false` and emitted a failure notification before creating any file and
before any frame processing. -/
def rejectsBeforeWork : ReframeStep → Bool
  | .rejectedMissingInput => true
  | .rejectedAspectFormat => true
  | .rejectedAspectValues => true
  | _ => false

/-- The format the claim describes: exactly two colon-separated strictly
positive integers, i.e. two nonempty all-digit parts with positive value
and nothing else (no signs, no surrounding whitespace). -/
def isStrictPositiveIntPair (targetParts : String) : Bool :=
  match qSplitColon targetParts.toList with
  | [w, h] =>
    !w.isEmpty && !h.isEmpty && w.all Char.isDigit && h.all Char.isDigit
      && decide (0 < digitsToNat w) && decide (0 < digitsToNat h)
  | _ => false

/-- What the code actually accepts: splitting on `":"` yields exactly two
parts, each accepted by `QString::toInt` with a strictly positive value. -/
def qtAcceptsAspect (targetParts : String) : Bool :=
  match qSplitColon targetParts.toList with
  | [w, h] =>
    match qToInt w, qToInt h with
    | some wv, some hv => decide (0 < wv) && decide (0 < hv)
    | _, _ => false
  | _ => false

/-- Counterexample for C10 as stated: the string `" 16:9"` does not
consist of exactly two colon-separated strictly positive integers (its
first part carries a leading space), yet `smartReframe` accepts it —
`QString::toInt` ignores surrounding whitespace — and proceeds to launch
the external process instead of returning `false`. -/
theorem smartReframe_accepts_nonstrict :
    isStrictPositiveIntPair " 16:9" = false
    ∧ smartReframe true " 16:9" true = .launched := by
  constructor
  · rfl
  · rfl

/-- C10 (amended): for every `targetRatio` string rejected by the code's
parse — splitting on `":"` does not yield exactly two parts each accepted
by `QString::toInt` (which ignores surrounding whitespace and allows a
leading sign) with a strictly positive value — `smartReframe` returns
`false` and emits a failure notification without launching any external
process or writing any output file, before any frame processing. -/
theorem smartReframe_invalid_aspect_rejected (inputExists scriptWriteOk : Bool)
    (targetParts : String)
    (hbad : qtAcceptsAspect targetParts = false) :
    rejectsBeforeWork (smartReframe inputExists targetParts scriptWriteOk) = true
    ∧ launchesProcess (smartReframe inputExists targetParts scriptWriteOk) = false := by
  cases inputExists with
  | false => exact ⟨rfl, rfl⟩
  | true =>
    rw [smartReframe]
    rw [if_neg (by simp)]
    rw [qtAcceptsAspect] at hbad
    split
    · rename_i w h heq
      rw [heq] at hbad
      dsimp only at hbad
      split
      · rename_i wv hv hw hh
        simp only [hw, hh] at hbad
        have hle : wv ≤ 0 ∨ hv ≤ 0 := by
          by_contra hcon
          push_neg at hcon
          obtain ⟨h1, h2⟩ := hcon
          simp [h1, h2] at hbad
        rw [if_pos hle]
        exact ⟨rfl, rfl⟩
      · exact ⟨rfl, rfl⟩
    · exact ⟨rfl, rfl⟩

/-- Witness for C10 (amended): `"16:0"` is rejected before any work. -/
theorem smartReframe_invalid_aspect_rejected_witness :
    rejectsBeforeWork (smartReframe true "16:0" true) = true
    ∧ launchesProcess (smartReframe true "16:0" true) = false :=
  smartReframe_invalid_aspect_rejected true true "16:0" (by decide)

end AIServices
